import Mathlib

set_option maxRecDepth 100000

/-!
Verification of the MCP rewrite proxy (src/proxy.py) against its
natural-language specification.

Python strings are modelled as `List Char`.  Each definition below is a
direct translation of the corresponding Python function; doc comments give
the source location.
-/

/-- Whitespace predicate used by Python's `str.lstrip()` (ASCII whitespace:
space, tab, newline, carriage return, vertical tab, form feed).  Code points
11 and 12 are vertical tab and form feed. -/
def pySpace (c : Char) : Bool :=
  c == ' ' || c == '\t' || c == '\n' || c == '\r' ||
  c == Char.ofNat 11 || c == Char.ofNat 12

/-- Model of Python `raw_packet.lstrip()` (proxy.py line 95). -/
def lstrip (s : List Char) : List Char :=
  s.dropWhile pySpace

/-- Left brace character, code point 123. -/
def lbrace : Char := Char.ofNat 123

/-- Model of Python `stripped.startswith` applied to the one-character
left-brace string (proxy.py line 98). -/
def startsWithLBrace (s : List Char) : Bool :=
  match s with
  | [] => false
  | c :: _ => c == lbrace

/-- Number of visible (non-newline) characters of a fragment: the length of
`[c for c in raw_packet if c != "\n"]` (proxy.py lines 102-103). -/
def visibleLen (s : List Char) : Nat :=
  (s.filter (fun c => c != '\n')).length

/-- Literal marker appended by the truncation rule (proxy.py line 125). -/
def truncMarker : List Char := "... (truncated)".toList

/-- Scanning loop of the truncation rule (proxy.py lines 111-122): newline
characters are appended unconditionally; a non-newline character is appended
while the budget `remaining` is positive, and the first non-newline character
found with the budget exhausted stops the scan (`break`). -/
def truncLoop : Nat → List Char → List Char
  | _, [] => []
  | remaining, c :: cs =>
    if c = '\n' then c :: truncLoop remaining cs
    else if 0 < remaining then c :: truncLoop (remaining - 1) cs
    else []

/-- Model of `apply_truncation_rule_if_needed` (proxy.py lines 80-126):
if the fragment with leading whitespace removed starts with a left brace,
return it unchanged; if its visible-character count is at most 350, return it
unchanged; otherwise run the scanning loop with a budget of 350 and append
the marker. -/
def apply_truncation_rule_if_needed (raw_packet : List Char) : List Char :=
  let stripped := lstrip raw_packet
  if startsWithLBrace stripped then raw_packet
  else
    let visible_chars := raw_packet.filter (fun c => c != '\n')
    let visible_len := visible_chars.length
    if visible_len ≤ 350 then raw_packet
    else truncLoop 350 raw_packet ++ truncMarker

/-- Helper: the scanning loop always returns a contiguous prefix of its
input, and the visible length of that prefix is the minimum of the budget
and the input's visible length. -/
theorem truncLoop_take (s : List Char) :
    ∀ r : Nat, ∃ n, truncLoop r s = s.take n ∧
      visibleLen (s.take n) = min r (visibleLen s) := by
  induction s with
  | nil =>
    intro r
    exact ⟨0, rfl, by simp [visibleLen]⟩
  | cons c cs ih =>
    intro r
    by_cases hc : c = '\n'
    · obtain ⟨n, h1, h2⟩ := ih r
      subst hc
      refine ⟨n + 1, ?_, ?_⟩
      · simp [truncLoop, h1]
      · simpa [visibleLen, List.filter_cons] using h2
    · rcases Nat.eq_zero_or_pos r with hr | hr
      · subst hr
        refine ⟨0, by simp [truncLoop, hc], by simp [visibleLen]⟩
      · obtain ⟨n, h1, h2⟩ := ih (r - 1)
        have hcb : (c != '\n') = true := bne_iff_ne.mpr hc
        refine ⟨n + 1, ?_, ?_⟩
        · simp [truncLoop, hc, hr, h1]
        · simp only [visibleLen, List.take_succ_cons, List.filter_cons,
            hcb, if_true, List.length_cons]
          simp only [visibleLen] at h2
          omega

/-- Helper: on a fragment with no newline characters the scanning loop with
budget `r` returns the first `r` characters. -/
theorem truncLoop_of_no_newline (s : List Char) (h : ∀ c ∈ s, c ≠ '\n') :
    ∀ r : Nat, truncLoop r s = s.take r := by
  induction s with
  | nil => intro r; simp [truncLoop]
  | cons c cs ih =>
    intro r
    have hc : c ≠ '\n' := h c (by simp)
    cases r with
    | zero => simp [truncLoop, hc]
    | succ k =>
      have := ih (fun x hx => h x (by simp [hx])) k
      simp [truncLoop, hc, List.take_succ_cons, this]

/-- Helper: when the probe does not start with a left brace and the visible
count exceeds 350, the Truncation Engine takes the truncating branch. -/
theorem apply_truncation_of_long (s : List Char)
    (h1 : startsWithLBrace (lstrip s) = false)
    (h2 : 350 < visibleLen s) :
    apply_truncation_rule_if_needed s = truncLoop 350 s ++ truncMarker := by
  have h2' : ¬ ((s.filter (fun c => c != '\n')).length ≤ 350) :=
    Nat.not_le.mpr h2
  simp [apply_truncation_rule_if_needed, h1, h2']

/-- Claim C4: a fragment whose probe does not start with a left brace and
whose visible-character count is at most 350 is returned unchanged by the
Truncation Engine. -/
theorem trunc_idempotence_boundary (s : List Char)
    (h1 : startsWithLBrace (lstrip s) = false)
    (h2 : visibleLen s ≤ 350) :
    apply_truncation_rule_if_needed s = s := by
  simp only [apply_truncation_rule_if_needed, h1, Bool.false_eq_true,
    if_false]
  have h2' : (s.filter (fun c => c != '\n')).length ≤ 350 := h2
  simp [h2']

/-- Witness for C4 at a fragment consisting entirely of newlines (visible
count 0): it is never truncated. -/
theorem trunc_idempotence_boundary_witness :
    (startsWithLBrace (lstrip (List.replicate 5 '\n')) = false ∧
      visibleLen (List.replicate 5 '\n') ≤ 350) ∧
    apply_truncation_rule_if_needed (List.replicate 5 '\n') =
      List.replicate 5 '\n' :=
  ⟨⟨by decide, by decide⟩,
    trunc_idempotence_boundary _ (by decide) (by decide)⟩

/-- Claim C5: a fragment whose first non-whitespace character is a left brace
is returned unmodified regardless of its length; the exemption looks only at
that character, never at JSON well-formedness. -/
theorem json_exemption (s : List Char)
    (h : startsWithLBrace (lstrip s) = true) :
    apply_truncation_rule_if_needed s = s := by
  simp [apply_truncation_rule_if_needed, h]

/-- Witness for C5 at a 10000-visible-character fragment that starts with a
left brace but is not well-formed JSON. -/
theorem json_exemption_witness :
    (startsWithLBrace (lstrip (lbrace :: List.replicate 9999 'a')) = true ∧
      (lbrace :: List.replicate 9999 'a').length = 10000) ∧
    apply_truncation_rule_if_needed (lbrace :: List.replicate 9999 'a') =
      lbrace :: List.replicate 9999 'a' :=
  ⟨⟨by decide, by rw [List.length_cons, List.length_replicate]⟩,
    json_exemption _ (by decide)⟩

/-- Fragment used to refute claim C3 as stated: 400 non-newline characters
whose FIRST character is a space (so not a left brace), but whose probe,
after the space is stripped, does start with a left brace. -/
def cexC3 : List Char := ' ' :: lbrace :: List.replicate 398 'a'

/-- Claim C3, counterexample to the claim as stated: `cexC3` has exactly 400
non-newline characters and its first character is not a left brace, yet the
Truncation Engine returns it unchanged (the JSON exemption looks at the
first NON-WHITESPACE character), not the first 350 characters plus marker. -/
theorem trunc_exactness_cex :
    (cexC3.length = 400 ∧ cexC3.all (fun c => c != '\n') = true ∧
      cexC3.head? ≠ some lbrace) ∧
    apply_truncation_rule_if_needed cexC3 = cexC3 ∧
    cexC3 ≠ cexC3.take 350 ++ truncMarker := by decide

/-- Claim C3 (amended): with the guard stated on the probe (the fragment
with leading whitespace stripped) rather than on the first character: a
400-character non-newline fragment whose probe does not start with a left
brace truncates to its first 350 characters plus the marker, and any
fragment of exactly 351 visible characters whose probe does not start with
a left brace truncates to a prefix of itself holding 350 visible characters
followed by the marker. -/
theorem trunc_exactness_amended :
    (∀ s : List Char, s.length = 400 → (∀ c ∈ s, c ≠ '\n') →
      startsWithLBrace (lstrip s) = false →
      apply_truncation_rule_if_needed s = s.take 350 ++ truncMarker) ∧
    (∀ s : List Char, visibleLen s = 351 →
      startsWithLBrace (lstrip s) = false →
      ∃ n, apply_truncation_rule_if_needed s = s.take n ++ truncMarker ∧
        visibleLen (s.take n) = 350) := by
  constructor
  · intro s hlen hnl hpr
    have hfil : s.filter (fun c => c != '\n') = s :=
      List.filter_eq_self.mpr (fun a ha => bne_iff_ne.mpr (hnl a ha))
    have hv : visibleLen s = 400 := by
      simp [visibleLen, hfil, hlen]
    rw [apply_truncation_of_long s hpr (by omega),
      truncLoop_of_no_newline s hnl 350]
  · intro s hv hpr
    obtain ⟨n, h1, h2⟩ := truncLoop_take s 350
    refine ⟨n, ?_, ?_⟩
    · rw [apply_truncation_of_long s hpr (by omega), h1]
    · rw [h2, hv]; decide

/-- Witness for the amended C3 at two concrete fragments: 400 letters, and
exactly 351 letters. -/
theorem trunc_exactness_amended_witness :
    ((List.replicate 400 'c').length = 400 ∧
      visibleLen (List.replicate 351 'd') = 351) ∧
    apply_truncation_rule_if_needed (List.replicate 400 'c') =
      (List.replicate 400 'c').take 350 ++ truncMarker ∧
    (∃ n, apply_truncation_rule_if_needed (List.replicate 351 'd') =
      (List.replicate 351 'd').take n ++ truncMarker ∧
      visibleLen ((List.replicate 351 'd').take n) = 350) :=
  ⟨⟨by decide, by decide⟩,
    trunc_exactness_amended.1 _ (by decide) (by decide) (by decide),
    trunc_exactness_amended.2 _ (by decide) (by decide)⟩

/-- Fragment exhibiting the C2 divergence: 350 visible characters, then a
newline, then one more visible character. -/
def cexC2 : List Char := List.replicate 350 'a' ++ '\n' :: ['b']

/-- Claim C2, evaluation at the failing input: `cexC2` has 351 visible
characters so it is truncated, but the newline sitting right AFTER the
350-character cutoff is still copied (the scan only stops at the next
non-newline character), so the marker lands on a new line instead of
immediately after the last copied visible character, contradicting both the
claim and the source's own docstring ("Append '... (truncated)' on the SAME
line"). -/
theorem trunc_copies_newline_after_cutoff :
    (visibleLen cexC2 = 351 ∧ startsWithLBrace (lstrip cexC2) = false) ∧
    apply_truncation_rule_if_needed cexC2 =
      List.replicate 350 'a' ++ '\n' :: truncMarker ∧
    apply_truncation_rule_if_needed cexC2 ≠
      List.replicate 350 'a' ++ truncMarker := by decide

/-- Claim C10: whenever the Truncation Engine changes a fragment, its output
with the trailing marker removed is a contiguous prefix of the original
fragment. -/
theorem trunc_prefix_property (s : List Char)
    (h : apply_truncation_rule_if_needed s ≠ s) :
    ∃ n, apply_truncation_rule_if_needed s = s.take n ++ truncMarker := by
  by_cases h1 : startsWithLBrace (lstrip s) = true
  · simp [apply_truncation_rule_if_needed, h1] at h
  · have h1' : startsWithLBrace (lstrip s) = false := by
      simpa using h1
    by_cases h2 : visibleLen s ≤ 350
    · have h2' : (s.filter (fun c => c != '\n')).length ≤ 350 := h2
      simp [apply_truncation_rule_if_needed, h1', h2'] at h
    · obtain ⟨n, hn, _⟩ := truncLoop_take s 350
      exact ⟨n, by rw [apply_truncation_of_long s h1' (by omega), hn]⟩

/-- Witness for C10 at a fragment of 351 letters, which the engine shortens. -/
theorem trunc_prefix_property_witness :
    apply_truncation_rule_if_needed (List.replicate 351 'b') ≠
      List.replicate 351 'b' ∧
    ∃ n, apply_truncation_rule_if_needed (List.replicate 351 'b') =
      (List.replicate 351 'b').take n ++ truncMarker :=
  ⟨by decide, trunc_prefix_property _ (by decide)⟩

/-- Log record emitted by `log_packet` (proxy.py lines 60-74): a direction
label and the payload passed for that hop.  Timestamp and ANSI color are
rendering concerns with no bearing on any claim and are not modelled. -/
structure LogRecord where
  direction : String
  content : List Char
deriving DecidableEq

/-- Direction label the relay passes to `log_packet` for each upstream chunk
(proxy.py line 192). -/
def dirCtoB : String := "C→B  Upstream → Proxy"

/-- Direction label for the proxy-to-client hop, named in the comment at
proxy.py lines 197-198; the code deliberately never logs under it. -/
def dirBtoA : String := "B→A  Proxy → Client"

/-- Model of the `generate` loop (proxy.py lines 182-195).  The upstream
transport (`iter_lines`) delivers a finite sequence of optional
newline-stripped lines; `None` entries are skipped, every other chunk gets
its trailing newline restored, is logged once under the upstream-to-proxy
label after the truncation rule, and is yielded to the client unmodified.
The result pairs the emitted log records with the concatenated client-visible
byte stream. -/
def generate : List (Option (List Char)) → List LogRecord × List Char
  | [] => ([], [])
  | none :: rest => generate rest
  | some chunk :: rest =>
    let text := chunk ++ ['\n']
    let logged := apply_truncation_rule_if_needed text
    ((⟨dirCtoB, logged⟩ : LogRecord) :: (generate rest).1,
      text ++ (generate rest).2)

/-- Helper: closed form of `generate` — one log record per delivered chunk,
and the forwarded stream is the concatenation of the chunks with their
newlines restored. -/
theorem generate_eq (chunks : List (Option (List Char))) :
    generate chunks =
      ((chunks.filterMap id).map
        (fun c =>
          (⟨dirCtoB, apply_truncation_rule_if_needed (c ++ ['\n'])⟩ :
            LogRecord)),
        ((chunks.filterMap id).map (fun c => c ++ ['\n'])).join) := by
  induction chunks with
  | nil => rfl
  | cons o rest ih =>
    cases o with
    | none => simpa [generate, List.filterMap_cons] using ih
    | some c => simp [generate, List.filterMap_cons, ih]

/-- Claim C1: the concatenated stream the relay yields to the client is
exactly the concatenation of the upstream chunks with their stripped
newlines restored, independent of what the Truncation Engine produced for
logging; in particular the three example chunks are forwarded verbatim. -/
theorem streaming_fidelity :
    (∀ chunks : List (Option (List Char)),
      (generate chunks).2 =
        ((chunks.filterMap id).map (fun c => c ++ ['\n'])).join) ∧
    (generate [some "\x7b\"a\":1\x7d".toList, some "data: hello".toList,
        some "data: world".toList]).2 =
      "\x7b\"a\":1\x7d\n".toList ++ "data: hello\n".toList ++
        "data: world\n".toList := by
  constructor
  · intro chunks
    rw [generate_eq]
  · decide

/-- Claim C8: a stream delivering N chunks produces exactly N log records,
all labeled with the upstream-to-proxy direction, and zero records labeled
with the proxy-to-client direction. -/
theorem no_duplicate_logging :
    ∀ chunks : List (Option (List Char)),
      (generate chunks).1.length = (chunks.filterMap id).length ∧
      (generate chunks).1.countP (fun r => r.direction == dirCtoB) =
        (chunks.filterMap id).length ∧
      (generate chunks).1.countP (fun r => r.direction == dirBtoA) = 0 := by
  intro chunks
  have hf : (dirCtoB == dirBtoA) = false := by decide
  rw [generate_eq]
  refine ⟨by simp, ?_, ?_⟩
  · simp [List.countP_map, Function.comp_def]
  · simp [List.countP_map, Function.comp_def, hf]

/-- Client-visible response produced by the `/mcp` handler. -/
structure ClientResponse where
  status : Nat
  contentType : String
  body : List Char

/-- Response metadata and chunk stream delivered by a successful upstream
call. -/
structure UpstreamResponse where
  status : Nat
  contentType : Option String
  chunks : List (Option (List Char))

/-- Model of the `/mcp` handler (proxy.py lines 150-201).  The upstream
transport (`requests.post`) is external I/O, modelled by the `upstream`
parameter: either a transport failure carrying the exception detail, or the
upstream status, content type and chunk stream.  Header preparation feeds
only that external call and is covered by `strip_hop_by_hop_headers`.  On
failure the handler logs the error once and answers 502 with a fixed
plain-text body (Flask's default content type for a plain string response);
on success it streams `generate` with the upstream status and content type,
falling back to the event-stream type when absent. -/
def mcp (incoming_body : List Char)
    (upstream : Except String UpstreamResponse) :
    List LogRecord × ClientResponse :=
  let logA : LogRecord := ⟨"A→B  Client → Proxy", incoming_body⟩
  let logB : LogRecord := ⟨"B→C  Proxy → Upstream", incoming_body⟩
  match upstream with
  | Except.error e =>
    ([logA, logB,
        ⟨"ERROR", "Proxy error contacting upstream:\n".toList ++ e.toList⟩],
      ⟨502, "text/html; charset=utf-8", "Upstream connection error".toList⟩)
  | Except.ok resp =>
    ([logA, logB] ++ (generate resp.chunks).1,
      ⟨resp.status, resp.contentType.getD "text/event-stream",
        (generate resp.chunks).2⟩)

/-- Claim C7: when the upstream call fails before any response is received,
the handler emits exactly one ERROR-labeled log record, that record carries
the failure detail, the client gets a server-error status (502) with the
short fixed plain-text body, and no response chunks are forwarded. -/
theorem upstream_failure_path :
    ∀ (b : List Char) (e : String),
      (mcp b (Except.error e)).1.countP
        (fun r => r.direction == "ERROR") = 1 ∧
      ((⟨"ERROR", "Proxy error contacting upstream:\n".toList ++ e.toList⟩ :
          LogRecord) ∈ (mcp b (Except.error e)).1) ∧
      500 ≤ (mcp b (Except.error e)).2.status ∧
      (mcp b (Except.error e)).2.status < 600 ∧
      (mcp b (Except.error e)).2.status = 502 ∧
      (mcp b (Except.error e)).2.body = "Upstream connection error".toList := by
  intro b e
  have h1 : ("A→B  Client → Proxy" == "ERROR") = false := by decide
  have h2 : ("B→C  Proxy → Upstream" == "ERROR") = false := by decide
  refine ⟨?_, ?_, ?_, ?_, ?_, ?_⟩
  · simp [mcp, List.countP_cons, h1, h2]
  · simp [mcp]
  · simp [mcp]
  · simp [mcp]
  · simp [mcp]
  · simp [mcp]

/-- Forwarded client stream of the relay loop, with the process shutdown
state made explicit.  The source's `generate` loop (proxy.py lines 182-195)
consults no shutdown state whatsoever — the `/shutdown` route (proxy.py
lines 207-216) only asks the werkzeug server to stop serving — so the
forwarded stream is defined independently of the flag parameter. -/
def relayForward (shutdownRequested : Bool)
    (chunks : List (Option (List Char))) : List Char :=
  (generate chunks).2

/-- Claim C9, counterexample to the claim as stated: with the shutdown flag
already set before the loop starts, both chunks of a two-chunk stream are
still forwarded in full — the loop does not abort early, it runs to the
natural end of the upstream stream. -/
theorem shutdown_check_cex :
    relayForward true [some "data: a".toList, some "data: b".toList] =
      "data: a\ndata: b\n".toList ∧
    "data: a\ndata: b\n".toList ≠ ([] : List Char) := by decide

/-- Claim C9 (amended): the chunk-forwarding loop performs no shutdown check
between chunks — the forwarded stream is identical for every state of the
shutdown flag and always equals the natural-completion concatenation of the
whole upstream stream. -/
theorem shutdown_check_amended :
    ∀ (flag1 flag2 : Bool) (chunks : List (Option (List Char))),
      relayForward flag1 chunks = relayForward flag2 chunks ∧
      relayForward flag1 chunks =
        ((chunks.filterMap id).map (fun c => c ++ ['\n'])).join := by
  intro flag1 flag2 chunks
  refine ⟨rfl, ?_⟩
  unfold relayForward
  rw [generate_eq]

/-- Model of Python `k.lower()`: per-character ASCII lowering.  This is
`String.toLower` (`map Char.toLower`) written directly over the character
list so that it evaluates by kernel reduction. -/
def pyLower (s : String) : String := String.mk (s.data.map Char.toLower)

/-- Hop-by-hop header names that must not be forwarded (proxy.py lines
134-143). -/
def hop_by_hop : List String :=
  ["connection", "keep-alive", "proxy-authenticate", "proxy-authorization",
    "te", "trailers", "transfer-encoding", "upgrade"]

/-- Model of `strip_hop_by_hop_headers` (proxy.py lines 132-144): a header
mapping is a list of key-value pairs; the Python dict comprehension builds a
new mapping keeping exactly the entries whose lowercased key is not
hop-by-hop, leaving the input untouched. -/
def strip_hop_by_hop_headers (headers : List (String × String)) :
    List (String × String) :=
  headers.filter (fun kv => !(hop_by_hop.contains (pyLower kv.1)))

/-- Claim C6: the filtered output contains no entry whose key lowercases to
a hop-by-hop name, and contains every other entry of the input with key and
value unchanged.  The input itself is untouched: the function is pure and
builds a fresh mapping. -/
theorem header_filtering :
    ∀ headers : List (String × String),
      (∀ kv ∈ strip_hop_by_hop_headers headers,
        pyLower kv.1 ∉ hop_by_hop) ∧
      (∀ kv ∈ headers, pyLower kv.1 ∉ hop_by_hop →
        kv ∈ strip_hop_by_hop_headers headers) := by
  intro headers
  constructor
  · intro kv hkv
    have := (List.mem_filter.mp hkv).2
    simpa using this
  · intro kv hkv hnot
    refine List.mem_filter.mpr ⟨hkv, ?_⟩
    simpa using hnot

/-- Witness for C6 at a concrete mapping: the non-hop-by-hop entry survives
with key and value unchanged, while a hop-by-hop entry is dropped. -/
theorem header_filtering_witness :
    ((("Host", "example.com") ∈
        [(("Connection", "close") : String × String), ("Host", "example.com")] ∧
      pyLower "Host" ∉ hop_by_hop) ∧
      ("Host", "example.com") ∈ strip_hop_by_hop_headers
        [(("Connection", "close") : String × String), ("Host", "example.com")]) ∧
    ("Connection", "close") ∉ strip_hop_by_hop_headers
      [(("Connection", "close") : String × String), ("Host", "example.com")] :=
  ⟨⟨⟨by decide, by decide⟩,
      (header_filtering
        [(("Connection", "close") : String × String),
          ("Host", "example.com")]).2
        ("Host", "example.com") (by decide) (by decide)⟩,
    by decide⟩
